import Mathlib

/-!
Verification development for the fiche TCP-paste front-end.

The Go source is shallowly embedded: byte slices become `List Nat`
(one `Nat` per byte), connection reads become an explicit trace of
read results, and the per-connection handler `Server.handle`, the
accept loop `Server.Run`, the systemd listener selection
`getListener`, and the haste client (`NewClient`, `Client.Paste`,
`newStatusError`) become Lean functions over those traces.
-/

namespace Fiche

/-- Byte sequence of an ASCII Go string literal. -/
def strBytes (s : String) : List Nat := s.toList.map Char.toNat

/-- Result of one `conn.Read(tmp)` call in `Server.handle`: the chunk
`tmp[:n]` actually read, tagged by the error outcome of the call
(`data` = nil error, `timeout` = a `net.Error` with `Timeout() == true`,
`fail` = any other non-nil error). -/
inductive ReadResult where
  | data (chunk : List Nat)
  | timeout (chunk : List Nat)
  | fail (chunk : List Nat)
deriving DecidableEq

/-- Terminal outcome of the read loop of `Server.handle` (main.go lines
143-175). `starved` marks a trace that ended before the loop decided
(a live socket always yields another read result). -/
inductive Outcome where
  | empty
  | rejected
  | finished (payload : List Nat)
  | starved
deriving DecidableEq

/-- Read loop of `Server.handle` (main.go lines 143-175). On a timeout
error the chunk is dropped: the code breaks (buffer non-empty) or
returns nil (buffer empty) before `buf.Write(tmp[:n])`. On any other
error the code falls through to `buf.Write(tmp[:n])` and keeps looping;
after each append it rejects when `buf.Len() > CLI.Limit`. -/
def ingest (limit : Nat) : List Nat → List ReadResult → Outcome
  | _, [] => .starved
  | buf, e :: es =>
    match e with
    | .timeout _ => if buf.length < 1 then .empty else .finished buf
    | .data chunk =>
        if (buf ++ chunk).length > limit then .rejected
        else ingest limit (buf ++ chunk) es
    | .fail chunk =>
        if (buf ++ chunk).length > limit then .rejected
        else ingest limit (buf ++ chunk) es

/-- Bytes of the rejection message written at main.go line 172:
`"Pastes may not exceed " + strconv.Itoa(CLI.Limit) + " bytes of data"`. -/
def rejectionBytes (limit : Nat) : List Nat :=
  strBytes ("Pastes may not exceed " ++ toString limit ++ " bytes of data")

/-- Result of Go `copy(dst[i:], src)`: the new contents of `dst`. The
number of bytes copied is `min src.length (dst.length - i)`. -/
def goCopy (dst : List Nat) (i : Nat) (src : List Nat) : List Nat :=
  dst.take i ++ src.take (min src.length (dst.length - i)) ++
    dst.drop (i + min src.length (dst.length - i))

/-- Return value of Go `copy(dst[i:], src)`: the number of bytes copied. -/
def goCopyLen (dst : List Nat) (i : Nat) (src : List Nat) : Nat :=
  min src.length (dst.length - i)

/-- Manual byte-slice construction of the response line (main.go lines
185-192): `res := make([]byte, len(url)+len(key)+2)`, `n := copy(res, url)`,
`res[n] = '/'`, `n++`, `n += copy(res[n:], key)`, `res[n] = '\n'`. -/
def composeBytes (url key : List Nat) : List Nat :=
  let res0 := List.replicate (url.length + key.length + 2) 0
  let n0 := goCopyLen res0 0 url
  let res1 := goCopy res0 0 url
  let res2 := res1.set n0 47
  let n1 := n0 + 1
  let n2 := n1 + goCopyLen res2 n1 key
  let res3 := goCopy res2 n1 key
  res3.set n2 10

/-- Observable behaviour of one `Server.handle` call: the list of
`conn.Write` calls (each entry one call's bytes), the list of payloads
handed to `haste.Paste` (each entry one call), and whether `handle`
returned a nil error. -/
structure HandleOut where
  writes : List (List Nat)
  published : List (List Nat)
  ok : Bool
deriving DecidableEq

/-- The per-connection handler `Server.handle` (main.go lines 133-199),
driven by a trace of read results. `pub` models `s.haste.Paste`:
`some key` on success, `none` on failure. `url` is `s.haste.URL`. -/
def handle (limit : Nat) (url : List Nat) (pub : List Nat → Option (List Nat))
    (events : List ReadResult) : HandleOut :=
  match ingest limit [] events with
  | .empty => ⟨[], [], true⟩
  | .rejected => ⟨[rejectionBytes limit], [], true⟩
  | .finished payload =>
      match pub payload with
      | none => ⟨[], [payload], false⟩
      | some key => ⟨[composeBytes url key], [payload], true⟩
  | .starved => ⟨[], [], false⟩

/-- The goroutine wrapper in `Server.Run` (main.go lines 123-127) logs a
warning exactly when `s.handle` returned a non-nil error. -/
def connectionLogged (out : HandleOut) : Bool := !out.ok

/-- Suffix checked at main.go line 115 against `err.Error()`. -/
def closedConnSuffix : List Nat := strBytes "use of closed network connection"

/-- Check `strings.HasSuffix(err.Error(), "use of closed network connection")`
from main.go line 115. -/
def isClosedConnErr (msg : List Nat) : Bool := closedConnSuffix.isSuffixOf msg

/-- One iteration of the accept loop of `Server.Run` (main.go lines
106-129): the context is observed done, or `Accept` returns a
connection, or `Accept` returns an error with message `msg`. -/
inductive LoopEvent where
  | cancelled
  | accepted
  | acceptErr (msg : List Nat)
deriving DecidableEq

/-- Observable behaviour of `Server.Run`: accept-error messages logged
(most recent first), number of connection handlers spawned, and whether
the loop returned (it returns only via `ctx.Err()`). -/
structure RunOut where
  loggedErrs : List (List Nat)
  spawned : Nat
  exited : Bool
deriving DecidableEq

/-- Accept loop of `Server.Run` (main.go lines 104-130). A
closed-listener error only breaks the inner select (nothing logged, the
loop re-checks the context); any other accept error is logged and the
loop continues; a done context returns `ctx.Err()`. -/
def runLoop : List LoopEvent → RunOut
  | [] => ⟨[], 0, false⟩
  | .cancelled :: _ => ⟨[], 0, true⟩
  | .accepted :: es =>
      let o := runLoop es
      ⟨o.loggedErrs, o.spawned + 1, o.exited⟩
  | .acceptErr msg :: es =>
      let o := runLoop es
      if isClosedConnErr msg then o
      else ⟨msg :: o.loggedErrs, o.spawned, o.exited⟩

/-- HTTP response as seen by the haste client: status code and full body. -/
structure HttpResponse where
  statusCode : Nat
  body : List Nat
deriving DecidableEq

/-- The `haste.StatusError` type (fields `Data`, `StatusCode`, `Expected`). -/
structure StatusError where
  data : List Nat
  statusCode : Nat
  expected : Nat
deriving DecidableEq

/-- Construction `newStatusError(res, expected)`: it reads at most
`4*1024` bytes of the response body via `io.LimitReader`. -/
def newStatusError (res : HttpResponse) (expected : Nat) : StatusError :=
  { data := res.body.take 4096, statusCode := res.statusCode, expected := expected }

/-- Error cases of `Client.Paste`. -/
inductive PasteErr where
  | status (e : StatusError)
  | decodeFailed
deriving DecidableEq

/-- Status and decode handling of `Client.Paste` (part_000 lines
125-143): any status outside `200 ≤ code ≤ 201` yields
`newStatusError(res, http.StatusOK)`; otherwise the JSON-decoded key
(`decoded`, the collaborator's parse of the body) is returned. -/
def Paste (res : HttpResponse) (decoded : Option (List Nat)) :
    Except PasteErr (List Nat) :=
  if res.statusCode < 200 ∨ 201 < res.statusCode then
    .error (.status (newStatusError res 200))
  else
    match decoded with
    | some key => .ok key
    | none => .error .decodeFailed

/-- File passed by the environment, together with the result of
`net.FileListener` on it (`some l` on success, `none` on failure, in
which case the slice keeps its nil entry). Listeners are identified by
an opaque `Nat`. -/
structure SocketFile where
  fd : Nat
  fileListener : Option Nat
deriving DecidableEq

/-- The `systemd.Listeners` function (part_000 lines 14-25): one slot
per file, nil slots where `net.FileListener` failed. -/
def Listeners (files : List SocketFile) : List (Option Nat) :=
  files.map (fun f => f.fileListener)

/-- Listener chosen by `getListener`: either an inherited slot (possibly
nil) used verbatim, or a fresh TCP bind on the configured address. -/
inductive ListenerChoice where
  | inherited (l : Option Nat)
  | freshBind (addr : List Nat)
deriving DecidableEq

/-- The `getListener` function (main.go lines 77-86): when exactly one
systemd listener slot exists it is returned verbatim, otherwise a fresh
listener is bound on `CLI.Listen`. -/
def getListener (files : List SocketFile) (listenAddr : List Nat) :
    ListenerChoice :=
  match Listeners files with
  | [l] => .inherited l
  | _ => .freshBind listenAddr

/-- The `haste.Client` struct: only the `URL` field matters here. -/
structure Client where
  URL : List Nat
deriving DecidableEq

/-- The `strings.TrimSuffix` function: drops `suffix` from the end of
`s` when present, otherwise returns `s` unchanged. -/
def trimSuffix (s suffix : List Nat) : List Nat :=
  if suffix.isSuffixOf s then s.take (s.length - suffix.length) else s

/-- The `haste.NewClient` constructor (part_000 lines 100-105): always
succeeds, storing `strings.TrimSuffix(url, "/")`. -/
def NewClient (url : List Nat) : Except Unit Client :=
  .ok { URL := trimSuffix url (strBytes "/") }

/-- Reading a run of successful chunks whose total stays within the
limit just accumulates them into the buffer. -/
theorem ingest_data_within (limit : Nat) :
    ∀ (cs : List (List Nat)) (buf : List Nat) (es : List ReadResult),
      (buf ++ cs.flatten).length ≤ limit →
      ingest limit buf (cs.map ReadResult.data ++ es) =
        ingest limit (buf ++ cs.flatten) es := by
  intro cs
  induction cs with
  | nil => intro buf es _; simp
  | cons c cs ih =>
      intro buf es h
      simp only [List.flatten_cons, List.length_append] at h
      simp only [List.map_cons, List.cons_append, ingest, List.append_eq]
      rw [if_neg (by simp only [List.length_append]; omega)]
      rw [ih (buf ++ c) es (by simp only [List.length_append]; omega)]
      simp [List.append_assoc]

/-- Reading a run of successful chunks whose total exceeds the limit
rejects the connection without touching the rest of the trace. -/
theorem ingest_data_over (limit : Nat) :
    ∀ (cs : List (List Nat)) (buf : List Nat) (es : List ReadResult),
      buf.length ≤ limit →
      limit < (buf ++ cs.flatten).length →
      ingest limit buf (cs.map ReadResult.data ++ es) = .rejected := by
  intro cs
  induction cs with
  | nil =>
      intro buf es hle hover
      simp only [List.flatten_nil, List.append_nil] at hover
      omega
  | cons c cs ih =>
      intro buf es hle hover
      simp only [List.flatten_cons, List.length_append] at hover
      simp only [List.map_cons, List.cons_append, ingest, List.append_eq]
      by_cases hc : (buf ++ c).length > limit
      · rw [if_pos hc]
      · rw [if_neg hc]
        refine ih (buf ++ c) es (by omega) ?_
        simp only [List.length_append] at hc ⊢
        omega

/-- The hand-rolled byte-slice construction of the response equals the
plain concatenation `url ++ "/" ++ key ++ "\n"`. -/
theorem composeBytes_eq (url key : List Nat) :
    composeBytes url key = url ++ [47] ++ key ++ [10] := by
  have hmin0 : min url.length (url.length + key.length + 2 - 0) = url.length := by
    omega
  have step1 :
      goCopy (List.replicate (url.length + key.length + 2) 0) 0 url =
        url ++ List.replicate (key.length + 2) 0 := by
    simp only [goCopy, List.length_replicate, hmin0, List.take_zero,
      List.nil_append, List.take_length, Nat.zero_add, List.drop_replicate]
    congr 1
    congr 1
    omega
  have step2 :
      (url ++ List.replicate (key.length + 2) 0).set url.length 47 =
        (url ++ [47]) ++ List.replicate (key.length + 1) 0 := by
    rw [List.set_append_right _ _ (Nat.le_refl _)]
    simp [List.replicate_succ]
  have hlen2 :
      ((url ++ [47]) ++ List.replicate (key.length + 1) 0).length =
        url.length + key.length + 2 := by
    simp; omega
  have step3 :
      goCopy ((url ++ [47]) ++ List.replicate (key.length + 1) 0)
          (url.length + 1) key =
        ((url ++ [47]) ++ key) ++ [0] := by
    simp only [goCopy]
    rw [hlen2]
    rw [show min key.length (url.length + key.length + 2 - (url.length + 1)) =
        key.length by omega]
    have hu1 : url.length + 1 = (url ++ [47]).length := by simp
    rw [List.take_length, hu1, List.take_left]
    rw [List.drop_append key.length, List.drop_replicate]
    rw [show key.length + 1 - key.length = 1 by omega]
    simp
  have step4 :
      (((url ++ [47]) ++ key) ++ [0]).set (url.length + 1 + key.length) 10 =
        url ++ [47] ++ key ++ [10] := by
    have hlen3 : ((url ++ [47]) ++ key).length = url.length + 1 + key.length := by
      simp; omega
    rw [← hlen3, List.set_append_right _ _ (Nat.le_refl _)]
    simp
  simp only [composeBytes, goCopyLen, List.length_replicate, hmin0]
  rw [step1, step2]
  rw [hlen2]
  rw [show url.length + key.length + 2 - (url.length + 1) = key.length + 1 by omega]
  rw [show min key.length (key.length + 1) = key.length by omega]
  rw [step3, step4]

/-- Reading a run of successful chunks within the limit followed by an
idle timeout finishes with exactly those chunks as the payload. -/
theorem ingest_finished (limit : Nat) (cs : List (List Nat)) (tchunk : List Nat)
    (es : List ReadResult) (hle : cs.flatten.length ≤ limit)
    (hne : cs.flatten ≠ []) :
    ingest limit [] (cs.map ReadResult.data ++ ReadResult.timeout tchunk :: es) =
      Outcome.finished cs.flatten := by
  rw [ingest_data_within limit cs [] _ (by simpa using hle)]
  simp only [List.nil_append, ingest]
  rw [if_neg (fun hlt => hne (List.length_eq_zero.mp (by omega)))]

/-- C1: for a connection whose accumulated payload grows strictly beyond
the configured limit, `Server.handle` rejects without consuming the rest
of the trace `es`, performs exactly one write — the fixed rejection
message stating the limit — and never calls the publisher. -/
theorem handle_over_limit_rejects (limit : Nat) (url : List Nat)
    (pub : List Nat → Option (List Nat)) (cs : List (List Nat))
    (es : List ReadResult) (hover : limit < cs.flatten.length) :
    handle limit url pub (cs.map ReadResult.data ++ es) =
      ⟨[rejectionBytes limit], [], true⟩ := by
  have hing : ingest limit [] (cs.map ReadResult.data ++ es) = .rejected :=
    ingest_data_over limit cs [] es (by simp) (by simpa using hover)
  simp [handle, hing]

/-- Witness for C1: limit 2, one 3-byte read. -/
theorem handle_over_limit_rejects_witness :
    handle 2 [104] (fun _ => none) ([[1, 2, 3]].map ReadResult.data ++ []) =
      ⟨[rejectionBytes 2], [], true⟩ :=
  handle_over_limit_rejects 2 [104] (fun _ => none) [[1, 2, 3]] [] (by decide)

/-- C2: a payload within the limit (the boundary included) followed by an
idle timeout is handed to the publisher; on success with key `key` the
handler performs exactly one write whose bytes are the concatenation
`url ++ "/" ++ key ++ "\n"` — the hand-rolled byte-copy construction
agrees with the naive concatenation. -/
theorem handle_success_response (limit : Nat) (url : List Nat)
    (pub : List Nat → Option (List Nat)) (cs : List (List Nat))
    (tchunk : List Nat) (es : List ReadResult) (key : List Nat)
    (hle : cs.flatten.length ≤ limit) (hne : cs.flatten ≠ [])
    (hpub : pub cs.flatten = some key) :
    handle limit url pub
        (cs.map ReadResult.data ++ ReadResult.timeout tchunk :: es) =
      ⟨[url ++ [47] ++ key ++ [10]], [cs.flatten], true⟩ := by
  have hing := ingest_finished limit cs tchunk es hle hne
  simp [handle, hing, hpub, composeBytes_eq]

/-- Witness for C2: a payload of exactly the limit size (3 bytes, split
across two reads) is accepted and answered with `url/key\n`. -/
theorem handle_success_response_witness :
    handle 3 [104] (fun _ => some [107])
        ([[1, 2], [3]].map ReadResult.data ++ ReadResult.timeout [9] :: []) =
      ⟨[[104] ++ [47] ++ [107] ++ [10]], [[[1, 2], [3]].flatten], true⟩ :=
  handle_success_response 3 [104] (fun _ => some [107]) [[1, 2], [3]] [9] []
    [107] (by decide) (by decide) rfl

/-- C3: a closed-listener accept failure during shutdown makes the loop
exit with nothing logged; any other accept error is logged and the loop
keeps accepting; without a cancellation the loop never exits, so no
accept error terminates the server. -/
theorem run_accept_error_policy :
    (∀ msg es, isClosedConnErr msg = true →
        runLoop (LoopEvent.acceptErr msg :: LoopEvent.cancelled :: es) =
          ⟨[], 0, true⟩) ∧
    (∀ msg es, isClosedConnErr msg = false →
        runLoop (LoopEvent.acceptErr msg :: es) =
          ⟨msg :: (runLoop es).loggedErrs, (runLoop es).spawned,
            (runLoop es).exited⟩) ∧
    (∀ es, LoopEvent.cancelled ∉ es → (runLoop es).exited = false) := by
  refine ⟨?_, ?_, ?_⟩
  · intro msg es h
    simp [runLoop, h]
  · intro msg es h
    simp [runLoop, h]
  · intro es h
    induction es with
    | nil => rfl
    | cons e es ih =>
        have htail : LoopEvent.cancelled ∉ es :=
          fun hm => h (List.mem_cons_of_mem _ hm)
        cases e with
        | cancelled => exact absurd (List.mem_cons_self _ _) h
        | accepted => simpa [runLoop] using ih htail
        | acceptErr msg =>
            by_cases hc : isClosedConnErr msg
            · simpa [runLoop, hc] using ih htail
            · simpa [runLoop, hc] using ih htail

/-- Witness for C3: the exact closed-listener message followed by
cancellation exits silently; message `[120]` is logged and the loop goes
on; a trace without cancellation leaves the loop running. -/
theorem run_accept_error_policy_witness :
    runLoop (LoopEvent.acceptErr closedConnSuffix :: LoopEvent.cancelled :: []) =
      ⟨[], 0, true⟩ ∧
    runLoop (LoopEvent.acceptErr [120] :: []) =
      ⟨[120] :: (runLoop []).loggedErrs, (runLoop []).spawned,
        (runLoop []).exited⟩ ∧
    (runLoop [LoopEvent.accepted]).exited = false :=
  ⟨run_accept_error_policy.1 closedConnSuffix [] (by decide),
   run_accept_error_policy.2.1 [120] [] (by decide),
   run_accept_error_policy.2.2 [LoopEvent.accepted] (by decide)⟩

/-- C4 counterexample: a read failing with a non-timeout transport error
(returning bytes `[1, 2, 3]`) does not stop the handler — it keeps the
bytes, keeps reading, publishes the payload and writes a success
response, contradicting the claimed Errored terminal state. -/
theorem read_error_not_terminal_cx :
    handle 10 [104] (fun _ => some [107])
        [ReadResult.fail [1, 2, 3], ReadResult.timeout []] =
      ⟨[[104, 47, 107, 10]], [[1, 2, 3]], true⟩ := by decide

/-- C4 amended: a read that fails with a non-timeout error is silently
treated exactly like a successful read of the same bytes — the chunk is
appended to the payload and the loop keeps reading; the handler neither
stops, nor reports, nor closes early on such an error. -/
theorem read_error_swallowed (limit : Nat) (buf chunk : List Nat)
    (es : List ReadResult) :
    ingest limit buf (ReadResult.fail chunk :: es) =
      ingest limit buf (ReadResult.data chunk :: es) := by
  simp only [ingest]

/-- C5: a connection that times out with zero accumulated bytes gets no
writes, no publish, and a nil error from `Server.handle`. -/
theorem handle_no_data_silent (limit : Nat) (url : List Nat)
    (pub : List Nat → Option (List Nat)) (cs : List (List Nat))
    (tchunk : List Nat) (es : List ReadResult) (hnil : cs.flatten = []) :
    handle limit url pub
        (cs.map ReadResult.data ++ ReadResult.timeout tchunk :: es) =
      ⟨[], [], true⟩ := by
  have hing : ingest limit []
      (cs.map ReadResult.data ++ ReadResult.timeout tchunk :: es) =
        Outcome.empty := by
    rw [ingest_data_within limit cs [] _ (by simp [hnil])]
    simp [ingest, hnil]
  simp [handle, hing]

/-- Witness for C5: an immediate idle timeout yields silence. -/
theorem handle_no_data_silent_witness :
    handle 5 [104] (fun _ => some [107])
        ([].map ReadResult.data ++ ReadResult.timeout [] :: []) =
      ⟨[], [], true⟩ :=
  handle_no_data_silent 5 [104] (fun _ => some [107]) [] [] [] (by decide)

/-- C6: when the publish call fails the handler writes nothing back,
publishes exactly once (no retry), returns a non-nil error, and the
`Server.Run` goroutine wrapper logs that error. -/
theorem handle_publish_failure (limit : Nat) (url : List Nat)
    (pub : List Nat → Option (List Nat)) (cs : List (List Nat))
    (tchunk : List Nat) (es : List ReadResult)
    (hle : cs.flatten.length ≤ limit) (hne : cs.flatten ≠ [])
    (hpub : pub cs.flatten = none) :
    handle limit url pub
        (cs.map ReadResult.data ++ ReadResult.timeout tchunk :: es) =
      ⟨[], [cs.flatten], false⟩ ∧
    connectionLogged ⟨[], [cs.flatten], false⟩ = true := by
  refine ⟨?_, rfl⟩
  have hing := ingest_finished limit cs tchunk es hle hne
  simp [handle, hing, hpub]

/-- Witness for C6: publisher failure on payload `[1]`. -/
theorem handle_publish_failure_witness :
    handle 5 [104] (fun _ => none)
        ([[1]].map ReadResult.data ++ ReadResult.timeout [] :: []) =
      ⟨[], [[[1]].flatten], false⟩ ∧
    connectionLogged ⟨[], [[[1]].flatten], false⟩ = true :=
  handle_publish_failure 5 [104] (fun _ => none) [[1]] [] [] (by decide)
    (by decide) rfl

/-- C7: any response status outside 200-201 makes `Client.Paste` return
no key but a `StatusError` carrying the response status code and at most
the first 4 KiB of the response body. -/
theorem paste_status_error (res : HttpResponse) (decoded : Option (List Nat))
    (hbad : res.statusCode < 200 ∨ 201 < res.statusCode) :
    Paste res decoded =
      .error (.status ⟨res.body.take 4096, res.statusCode, 200⟩) ∧
    (res.body.take 4096).length ≤ 4096 := by
  constructor
  · unfold Paste
    rw [if_pos hbad]
    rfl
  · simp only [List.length_take]
    omega

/-- Witness for C7: status 404 with a 3-byte body. -/
theorem paste_status_error_witness :
    Paste ⟨404, [1, 2, 3]⟩ (some [107]) =
      .error (.status ⟨([1, 2, 3] : List Nat).take 4096, 404, 200⟩) ∧
    (([1, 2, 3] : List Nat).take 4096).length ≤ 4096 :=
  paste_status_error ⟨404, [1, 2, 3]⟩ (some [107]) (by decide)

/-- C8: with exactly one environment-supplied socket file the inherited
slot is returned verbatim; with any other count (zero, or two or more) a
fresh listener is bound on the configured address. -/
theorem getListener_spec :
    (∀ f addr, getListener [f] addr = .inherited f.fileListener) ∧
    (∀ files addr, files.length ≠ 1 →
        getListener files addr = .freshBind addr) := by
  constructor
  · intro f addr
    rfl
  · intro files addr h
    match files with
    | [] => rfl
    | [f] => exact absurd rfl h
    | f :: g :: t => rfl

/-- Witness for C8: one supplied socket is used verbatim; an empty
supply falls back to binding the listen address. -/
theorem getListener_spec_witness :
    getListener [⟨3, some 7⟩] [58] = .inherited (some 7) ∧
    getListener [] [58] = .freshBind [58] :=
  ⟨getListener_spec.1 ⟨3, some 7⟩ [58], getListener_spec.2 [] [58] (by decide)⟩

/-- C9: `NewClient` never fails and stores the url with a single
trailing slash (when present) removed, so a base URL configured with a
trailing slash still produces a response line `base ++ "/" ++ key ++ "\n"`
with the single slash re-inserted between base and key. -/
theorem newClient_trims_slash (url key : List Nat) :
    NewClient url = .ok ⟨trimSuffix url [47]⟩ ∧
    (∀ b, url = b ++ [47] →
      composeBytes (trimSuffix url [47]) key = b ++ [47] ++ key ++ [10]) := by
  constructor
  · rfl
  · intro b hb
    subst hb
    have htrim : trimSuffix (b ++ [47]) [47] = b := by
      unfold trimSuffix
      rw [if_pos (by simp)]
      simp
    rw [htrim, composeBytes_eq]

/-- Witness for C9: base `[104, 47]` (ends in a slash) is stored as
`[104]` and the composed line is `[104, 47, 107, 10]`. -/
theorem newClient_trims_slash_witness :
    NewClient [104, 47] = .ok ⟨trimSuffix [104, 47] [47]⟩ ∧
    composeBytes (trimSuffix [104, 47] [47]) [107] =
      [104] ++ [47] ++ [107] ++ [10] :=
  ⟨(newClient_trims_slash [104, 47] [107]).1,
   (newClient_trims_slash [104, 47] [107]).2 [104] rfl⟩

/-- C10: the bytes returned together with a timeout error are discarded:
the finished payload is exactly the concatenation of the successful
reads' chunks, whatever chunk `tchunk` arrived with the timeout. -/
theorem timeout_chunk_discarded (limit : Nat) (cs : List (List Nat))
    (tchunk : List Nat) (es : List ReadResult)
    (hle : cs.flatten.length ≤ limit) (hne : cs.flatten ≠ []) :
    ingest limit [] (cs.map ReadResult.data ++ ReadResult.timeout tchunk :: es) =
      Outcome.finished cs.flatten :=
  ingest_finished limit cs tchunk es hle hne

/-- Witness for C10: two bytes read, then a timeout arriving with two
extra bytes that never reach the payload. -/
theorem timeout_chunk_discarded_witness :
    ingest 10 [] ([[1, 2]].map ReadResult.data ++ ReadResult.timeout [9, 9] :: []) =
      Outcome.finished [[1, 2]].flatten :=
  timeout_chunk_discarded 10 [[1, 2]] [9, 9] [] (by decide) (by decide)

end Fiche
